import Mathlib

/-!
Verification of the chess-game-api repository.

A shallow embedding of the broadcast hub in `messenger.go` (registry of
connected clients, broadcast channel, ingress loops, dispatch loop) and of
the HTTP CRUD handlers over the games collection in `main.go` and in the
repository's unnamed earlier handler file, together with theorems settling
the specification's claims about them.

Conventions of the embedding:
- a `*websocket.Conn` is abstracted to its identity (the map key);
- the environment's choices (whether a WriteJSON to a given peer fails,
  what a request body decodes to, the order in which a Go map range visits
  its keys, the ObjectID generated by InsertOne) are explicit parameters;
- `time.Time` values are abstracted to natural-number ticks, BSON document
  ids to strings;
- driver transport errors (the 500 branches of the CRUD handlers) are
  outside the pure-store model: the store operations themselves always
  succeed, and their matched/deleted counts are modelled faithfully.
-/

/-- Wire message of the hub, `type Message struct` in messenger.go:
fields `Username` and `Message`. -/
structure Message where
  username : String
  message : String
deriving DecidableEq, Repr

/-- A connection handle `*websocket.Conn`, abstracted to its identity. -/
abbrev ConnId := Nat

/-- The registry `var clients = make(map[*websocket.Conn]bool)`.  Only `true`
is ever stored as a value, so the map is its list of keys (no duplicates,
as in any Go map). -/
abbrev Registry := List ConnId

/-- `clients[ws] = true` in handleConnections: inserting a key already
present leaves a Go map unchanged. -/
def registerClient (reg : Registry) (c : ConnId) : Registry :=
  if c ∈ reg then reg else c :: reg

/-- `delete(clients, ws)`: Go's map delete, a no-op when the key is absent. -/
def deleteClient (reg : Registry) (c : ConnId) : Registry :=
  reg.filter (fun x => x != c)

/-- One `client.WriteJSON(msg)` attempt recorded during fan-out:
its target, the message written, and whether the write succeeded. -/
structure SendEvent where
  target : ConnId
  msg : Message
  ok : Bool
deriving DecidableEq, Repr

/-- The inner loop of handleMessages:

    for client := range clients {
      err := client.WriteJSON(msg)
      if err != nil {
        client.Close()
        delete(clients, client)
      }
    }

`fails c` is the environment's choice of whether the write to `c` fails;
`pending` is the order in which the range visits the keys present when the
loop starts (the loop deletes only the key just visited, so every key in
the snapshot is visited exactly once). -/
def fanOutLoop (fails : ConnId → Bool) (msg : Message) :
    List ConnId → Registry → Registry × List SendEvent
  | [], reg => (reg, [])
  | c :: rest, reg =>
    let ev : SendEvent := ⟨c, msg, !fails c⟩
    let reg' := if fails c then deleteClient reg c else reg
    let r := fanOutLoop fails msg rest reg'
    (r.1, ev :: r.2)

/-- One dispatch pass of handleMessages for a dequeued message: the snapshot
iterated is the registry at the moment the message is dispatched. -/
def fanOut (fails : ConnId → Bool) (msg : Message) (reg : Registry) :
    Registry × List SendEvent :=
  fanOutLoop fails msg reg reg

/-- The outer loop of handleMessages, `for { msg := <-broadcast ... }`,
unrolled over the finite sequence of messages the broadcast channel
delivers, in FIFO order.  Returns the final registry and the full trace of
send events in the order the single dispatch goroutine performs them. -/
def handleMessages (fails : ConnId → Message → Bool) :
    List Message → Registry → Registry × List SendEvent
  | [], reg => (reg, [])
  | m :: rest, reg =>
    let pass := fanOut (fun c => fails c m) m reg
    let r := handleMessages fails rest pass.1
    (r.1, pass.2 ++ r.2)

/-- Lifecycle state of one connection, as maintained jointly by its
handleConnections goroutine and the handleMessages goroutine. -/
structure ConnSt where
  /-- the key is present in the `clients` map -/
  registered : Bool
  /-- the connection's handleConnections goroutine is running (past a
  successful upgrade, before its `break`) -/
  active : Bool
  /-- the goroutine's `ws.ReadJSON` has returned an error -/
  readFailed : Bool
  /-- the dispatch loop's `client.WriteJSON` on this connection has
  returned an error -/
  writeFailed : Bool
  /-- the connection has ever been registered (each upgrade yields a fresh
  `*websocket.Conn`, so a handle is never registered twice) -/
  started : Bool
deriving DecidableEq, Repr

/-- State of a connection that has never been seen. -/
def ConnSt.init : ConnSt := ⟨false, false, false, false, false⟩

/-- Events of the hub's lifecycle, at the granularity of the registry
mutations in messenger.go. -/
inductive Ev where
  /-- successful upgrade followed by `clients[ws] = true` and entry into
  the read loop -/
  | register (c : ConnId)
  /-- a successful `ReadJSON` followed by `broadcast <- msg` -/
  | readOk (c : ConnId) (m : Message)
  /-- `ReadJSON` error: `delete(clients, ws); break` -/
  | readFail (c : ConnId)
  /-- `WriteJSON` error during dispatch: `client.Close(); delete(clients, client)`;
  the connection's own goroutine keeps running (blocked in `ReadJSON`) -/
  | writeFail (c : ConnId)
deriving DecidableEq, Repr

/-- Joint lifecycle state of all connections. -/
abbrev SysSt := ConnId → ConnSt

/-- Initial state: no connection seen yet. -/
def initSt : SysSt := fun _ => ConnSt.init

/-- Whether an event can occur in a given state, read off messenger.go:
a fresh handle can be registered; reads happen while the goroutine runs;
writes are attempted only on registered clients. -/
def enabled (s : SysSt) : Ev → Bool
  | .register c => !(s c).started
  | .readOk c _ => (s c).active && !(s c).readFailed
  | .readFail c => (s c).active && !(s c).readFailed
  | .writeFail c => (s c).registered

/-- Effect of an event on the state. -/
def applyEv (s : SysSt) : Ev → SysSt
  | .register c => fun x =>
      if x = c then { s c with registered := true, active := true, started := true }
      else s x
  | .readOk _ _ => s
  | .readFail c => fun x =>
      if x = c then { s c with registered := false, active := false, readFailed := true }
      else s x
  | .writeFail c => fun x =>
      if x = c then { s c with registered := false, writeFailed := true }
      else s x

/-- One step: an event that is not enabled cannot occur and changes nothing. -/
def step (s : SysSt) (e : Ev) : SysSt :=
  if enabled s e then applyEv s e else s

/-- The state after a trace of events. -/
def run (evs : List Ev) : SysSt :=
  evs.foldl step initSt

/-- Invariant tying registry membership to the lifecycle: a connection is
registered exactly when its goroutine is active and no terminal failure
(read or write) has been observed on it; and a connection never seen is in
its initial state. -/
def HubInv (s : SysSt) : Prop :=
  ∀ c, ((s c).registered = ((s c).active && !(s c).readFailed && !(s c).writeFailed))
    ∧ ((s c).started = false → s c = ConnSt.init)

/-- Result of `upgrader.Upgrade(w, r, nil)` in handleConnections. -/
inductive UpgradeResult where
  | ok (c : ConnId)
  | err
deriving DecidableEq, Repr

/-- Outcome of entering handleConnections for one request. -/
inductive HCOutcome where
  /-- `log.Fatal(err)`: the entire process exits -/
  | processAbort
  /-- the connection was registered and its read loop started -/
  | registered (c : ConnId) (reg : Registry)
deriving DecidableEq, Repr

/-- The prologue of handleConnections:

    ws, err := upgrader.Upgrade(w, r, nil)
    if err != nil { log.Fatal(err) }
    defer ws.Close()
    clients[ws] = true

On upgrade failure the handler calls `log.Fatal`, which terminates the
whole process; nothing is ever registered on that path. -/
def handleConnectionsEntry (u : UpgradeResult) (reg : Registry) : HCOutcome :=
  match u with
  | .err => .processAbort
  | .ok c => .registered c (registerClient reg c)

/-- The goroutines of messenger.go that touch the `clients` map. -/
inductive GoTask where
  | ingress (c : ConnId)
  | hubDispatch
deriving DecidableEq, Repr

/-- Kind of access to the map. -/
inductive MapOp where
  | insert
  | delete
  | iterate
deriving DecidableEq, Repr

/-- One source-level access to the shared `clients` map; `sync` records
whether the source guards that access with any mutual-exclusion primitive.
messenger.go contains none: no `sync.Mutex`, no owner goroutine, no channel
protocol around the map. -/
structure ClientsAccess where
  task : GoTask
  op : MapOp
  sync : Bool
deriving DecidableEq, Repr

/-- The four accesses to `clients` in messenger.go, for the goroutine
serving connection `c`: `clients[ws] = true` and `delete(clients, ws)` in
handleConnections, `for client := range clients` and
`delete(clients, client)` in handleMessages. -/
def clientsAccesses (c : ConnId) : List ClientsAccess :=
  [⟨.ingress c, .insert, false⟩,
   ⟨.ingress c, .delete, false⟩,
   ⟨.hubDispatch, .iterate, false⟩,
   ⟨.hubDispatch, .delete, false⟩]

/-- Game record, `type Game struct` of main.go; `time.Time` abstracted to a
natural-number tick. -/
structure Game where
  id : String
  player1 : String
  player2 : String
  moves : List String
  createdAt : Nat
  lastUpdated : Nat
deriving DecidableEq, Repr

/-- The zero value `var game Game`, before a possibly failing Decode. -/
def Game.zero : Game := ⟨"", "", "", [], 0, 0⟩

/-- The games collection, keyed by the document id (BSON ids abstracted to
strings; keys unique in MongoDB). -/
abbrev GameStore := List (String × Game)

/-- `FindOne(ctx, bson.M).Decode(&game)`: the stored document when the id
matches, `none` for ErrNoDocuments (which leaves `game` untouched). -/
def findDoc (db : GameStore) (id : String) : Option Game :=
  (db.find? (fun p => p.1 == id)).map (fun p => p.2)

/-- `ReplaceOne`: replaces the matching document; a zero matched count is a
normal result, not an error. -/
def replaceOne (db : GameStore) (id : String) (g : Game) : GameStore × Nat :=
  if db.any (fun p => p.1 == id) then
    (db.map (fun p => if p.1 == id then (p.1, g) else p), 1)
  else (db, 0)

/-- `DeleteOne`: removes the matching document; a zero deleted count is a
normal result, not an error. -/
def deleteOne (db : GameStore) (id : String) : GameStore × Nat :=
  if db.any (fun p => p.1 == id) then (db.filter (fun p => p.1 != id), 1)
  else (db, 0)

/-- HTTP responses the handlers produce.  `internalError` is the 500 branch
taken only on a driver transport error, which the pure-store model never
raises. -/
inductive HttpResponse where
  /-- `json.NewEncoder(w).Encode(game)`: implicit 200 with a body -/
  | okBody (g : Game)
  /-- `w.WriteHeader(http.StatusOK)` -/
  | okNoBody
  /-- `w.WriteHeader(http.StatusCreated)` -/
  | created
  /-- `http.Error(w, "Game not found", http.StatusNotFound)` -/
  | notFound
  /-- `http.Error(w, err.Error(), http.StatusInternalServerError)` -/
  | internalError
deriving DecidableEq, Repr

/-- createGame (identical in main.go and in the earlier handler file):

    var game Game
    json.NewDecoder(r.Body).Decode(&game)   // error discarded
    game.CreatedAt = time.Now()
    game.LastUpdated = game.CreatedAt
    _, err := getCollection().InsertOne(ctx, game)
    ...
    w.WriteHeader(http.StatusCreated)

`decoded` is the Decode result: `none` for an empty or syntactically
invalid body, which leaves `game` at its zero value.  `now` is the clock
reading and `genId` the ObjectID InsertOne generates when the document
carries no id of its own. -/
def createGame (decoded : Option Game) (now : Nat) (genId : String)
    (db : GameStore) : HttpResponse × GameStore :=
  let game := decoded.getD Game.zero
  let game2 := { game with createdAt := now, lastUpdated := now }
  let key := if game2.id = "" then genId else game2.id
  (.created, db ++ [(key, game2)])

/-- Hexadecimal digit test of encoding/hex, case-insensitive. -/
def isHexChar (ch : Char) : Bool :=
  ch.isDigit || (decide ('a' ≤ ch) && decide (ch ≤ 'f'))
    || (decide ('A' ≤ ch) && decide (ch ≤ 'F'))

/-- `primitive.ObjectIDFromHex`: accepts exactly 24 hexadecimal characters;
the resulting ObjectID compares by its bytes, modelled by the lowercased
hex string. -/
def objectIDFromHex (s : String) : Option String :=
  if s.length == 24 && s.toList.all isHexChar then some s.toLower else none

namespace MainGo

/-- getGame of main.go: 404 only when the path id fails ObjectIDFromHex.
A FindOne/Decode miss (`gameDoc != nil`) is merely logged, after which the
zero-valued `game` is encoded with an implicit 200. -/
def getGame (hexId : String) (db : GameStore) : HttpResponse :=
  match objectIDFromHex hexId with
  | none => .notFound
  | some oid => .okBody ((findDoc db oid).getD Game.zero)

end MainGo

namespace Part000

/-- getGame of the repository's earlier handler file: any FindOne/Decode
error — ErrNoDocuments when the id is absent — yields 404. -/
def getGame (id : String) (db : GameStore) : HttpResponse :=
  match findDoc db id with
  | none => .notFound
  | some g => .okBody g

end Part000

/-- updateGame (identical in both handler files): the Decode error is
discarded, `LastUpdated` is refreshed, and ReplaceOne's matched count is
ignored — the handler answers 200 whenever the operation itself succeeds. -/
def updateGame (id : String) (decoded : Option Game) (now : Nat)
    (db : GameStore) : HttpResponse × GameStore :=
  let game := decoded.getD Game.zero
  let game2 := { game with lastUpdated := now }
  let r := replaceOne db id game2
  (.okNoBody, r.1)

/-- deleteGame (identical in both handler files): DeleteOne's deleted count
is ignored — the handler answers 200 whenever the operation itself
succeeds. -/
def deleteGame (id : String) (db : GameStore) : HttpResponse × GameStore :=
  let r := deleteOne db id
  (.okNoBody, r.1)

/-- A well-formed 24-character hex id for which no record exists in the
stores used by the counterexamples. -/
def missingHexId : String := "000000000000000000000000"

/-! ## Lemmas about one fan-out pass -/

/-- The trace of a fan-out pass: one write attempt per key in iteration
order, the outcome of each depending only on its own target. -/
theorem fanOutLoop_snd (fails : ConnId → Bool) (msg : Message) :
    ∀ (pending : List ConnId) (reg : Registry),
      (fanOutLoop fails msg pending reg).2
        = pending.map (fun c => (⟨c, msg, !fails c⟩ : SendEvent)) := by
  intro pending
  induction pending with
  | nil => intro reg; rfl
  | cons a t ih => intro reg; simp [fanOutLoop, ih]

/-- A connection absent from the visited part of the snapshot gets no
events targeted at it. -/
theorem filter_target_nil (fails : ConnId → Bool) (msg : Message) (c : ConnId) :
    ∀ (l : List ConnId), c ∉ l →
      (l.map (fun x => (⟨x, msg, !fails x⟩ : SendEvent))).filter
          (fun e => e.target == c) = [] := by
  intro l
  induction l with
  | nil => intro _; rfl
  | cons a t ih =>
    intro hc
    have ha : a ≠ c := fun h => hc (h ▸ List.mem_cons_self a t)
    have ht : c ∉ t := fun h => hc (List.mem_cons_of_mem a h)
    simp [List.filter_cons, ha, ih ht]

/-- Over a duplicate-free snapshot, each member is targeted by exactly one
event. -/
theorem filter_target_singleton (fails : ConnId → Bool) (msg : Message) (c : ConnId) :
    ∀ (l : List ConnId), l.Nodup → c ∈ l →
      ((l.map (fun x => (⟨x, msg, !fails x⟩ : SendEvent))).filter
          (fun e => e.target == c)).length = 1 := by
  intro l
  induction l with
  | nil => intro _ hc; cases hc
  | cons a t ih =>
    intro hnd hc
    rcases List.nodup_cons.mp hnd with ⟨hat, hndt⟩
    by_cases hac : a = c
    · subst hac
      simp [List.filter_cons, filter_target_nil fails msg a t hat]
    · have hct : c ∈ t := by
        cases List.mem_cons.mp hc with
        | inl h => exact absurd h.symm hac
        | inr h => exact h
      simp [List.filter_cons, hac, ih hndt hct]

/-- The final registry of a pass only loses members. -/
theorem fanOutLoop_fst_subset (fails : ConnId → Bool) (msg : Message) :
    ∀ (pending : List ConnId) (reg : Registry) (x : ConnId),
      x ∈ (fanOutLoop fails msg pending reg).1 → x ∈ reg := by
  intro pending
  induction pending with
  | nil => intro reg x h; simpa [fanOutLoop] using h
  | cons a t ih =>
    intro reg x h
    simp only [fanOutLoop] at h
    have hx := ih _ x h
    by_cases hf : fails a
    · simp only [hf, if_pos, deleteClient] at hx
      exact (List.mem_filter.mp hx).1
    · simpa [hf] using hx

/-- A visited connection whose write fails is absent from the final
registry of the pass. -/
theorem fanOutLoop_fst_not_mem (fails : ConnId → Bool) (msg : Message) :
    ∀ (pending : List ConnId) (reg : Registry) (a : ConnId),
      a ∈ pending → fails a = true → a ∉ (fanOutLoop fails msg pending reg).1 := by
  intro pending
  induction pending with
  | nil => intro reg a ha _; cases ha
  | cons b t ih =>
    intro reg a ha hf hmem
    simp only [fanOutLoop] at hmem
    by_cases hab : a = b
    · subst hab
      have hx := fanOutLoop_fst_subset fails msg t _ a hmem
      rw [if_pos hf] at hx
      simp [deleteClient, List.mem_filter] at hx
    · have hat : a ∈ t := by
        cases List.mem_cons.mp ha with
        | inl h => exact absurd h hab
        | inr h => exact h
      exact ih _ a hat hf hmem

/-- A connection whose write does not fail survives the pass. -/
theorem fanOutLoop_fst_mem (fails : ConnId → Bool) (msg : Message) :
    ∀ (pending : List ConnId) (reg : Registry) (c : ConnId),
      c ∈ reg → fails c = false → c ∈ (fanOutLoop fails msg pending reg).1 := by
  intro pending
  induction pending with
  | nil => intro reg c hc _; simpa [fanOutLoop] using hc
  | cons b t ih =>
    intro reg c hc hf
    simp only [fanOutLoop]
    by_cases hfb : fails b
    · have hcb : c ≠ b := fun h => by rw [h, hfb] at hf; cases hf
      refine ih _ c ?_ hf
      rw [if_pos hfb]
      simp [deleteClient, List.mem_filter, hc, hcb]
    · exact ih _ c (by simpa [hfb] using hc) hf

/-! ## Claim theorems for the dispatch loop -/

/-- C1: every connection present in the clients map at the moment a message
is dispatched — the sender's own connection included, since the loop skips
nobody — is the target of exactly one WriteJSON for that message in that
pass, and every event of the pass carries that message. -/
theorem fanOut_delivers_exactly_once (fails : ConnId → Bool) (msg : Message)
    (reg : Registry) (hnd : reg.Nodup) (c : ConnId) (hc : c ∈ reg) :
    (((fanOut fails msg reg).2.filter (fun e => e.target == c)).length = 1)
    ∧ (∀ e ∈ (fanOut fails msg reg).2, e.msg = msg) := by
  constructor
  · rw [fanOut, fanOutLoop_snd]
    exact filter_target_singleton fails msg c reg hnd hc
  · intro e he
    rw [fanOut, fanOutLoop_snd] at he
    obtain ⟨x, _, rfl⟩ := List.mem_map.mp he
    rfl

/-- Witness for C1 on the snapshot [0, 1, 2] with no write failures. -/
theorem fanOut_delivers_exactly_once_witness :
    ([0, 1, 2] : Registry).Nodup ∧ 1 ∈ ([0, 1, 2] : Registry)
    ∧ (((fanOut (fun _ => false) ⟨"a", "hi"⟩ [0, 1, 2]).2.filter
          (fun e => e.target == 1)).length = 1) :=
  ⟨by decide, by decide,
    (fanOut_delivers_exactly_once (fun _ => false) ⟨"a", "hi"⟩ [0, 1, 2]
      (by decide) 1 (by decide)).1⟩

/-- C2: when the write to connection `a` fails during a pass, every
connection of the snapshot still gets its own write attempt, every
connection whose own write succeeds actually receives the message and
stays registered, and `a` is removed from the registry; no event of the
pass reports `a`'s failure to any other connection. -/
theorem fanOut_failure_isolated (fails : ConnId → Bool) (msg : Message)
    (reg : Registry) (a : ConnId) (ha : a ∈ reg) (hf : fails a = true) :
    ((fanOut fails msg reg).2.map (fun e => e.target) = reg)
    ∧ (∀ c ∈ reg, fails c = false →
        (⟨c, msg, true⟩ : SendEvent) ∈ (fanOut fails msg reg).2)
    ∧ a ∉ (fanOut fails msg reg).1
    ∧ (∀ c ∈ reg, fails c = false → c ∈ (fanOut fails msg reg).1) := by
  refine ⟨?_, ?_, ?_, ?_⟩
  · rw [fanOut, fanOutLoop_snd, List.map_map]
    exact List.map_id reg
  · intro c hc hfc
    rw [fanOut, fanOutLoop_snd]
    have : (⟨c, msg, !fails c⟩ : SendEvent)
        ∈ reg.map (fun x => (⟨x, msg, !fails x⟩ : SendEvent)) :=
      List.mem_map_of_mem _ hc
    simpa [hfc] using this
  · exact fanOutLoop_fst_not_mem fails msg reg reg a ha hf
  · intro c hc hfc
    exact fanOutLoop_fst_mem fails msg reg reg c hc hfc

/-- Witness for C2: on snapshot [0, 1, 2] the write to 1 fails; 0 and 2
still receive the message and 1 is deregistered. -/
theorem fanOut_failure_isolated_witness :
    (1 ∈ ([0, 1, 2] : Registry)) ∧ ((fun c => c == 1) 1 = true)
    ∧ 1 ∉ (fanOut (fun c => c == 1) ⟨"a", "hi"⟩ [0, 1, 2]).1
    ∧ (⟨2, ⟨"a", "hi"⟩, true⟩ : SendEvent)
        ∈ (fanOut (fun c => c == 1) ⟨"a", "hi"⟩ [0, 1, 2]).2 :=
  ⟨by decide, by decide,
    (fanOut_failure_isolated (fun c => c == 1) ⟨"a", "hi"⟩ [0, 1, 2] 1
      (by decide) (by decide)).2.2.1,
    (fanOut_failure_isolated (fun c => c == 1) ⟨"a", "hi"⟩ [0, 1, 2] 1
      (by decide) (by decide)).2.1 2 (by decide) (by decide)⟩

/-- C5: the trace of the single dispatch goroutine decomposes into one
contiguous block per dequeued message, blocks in queue order, every event
of a block carrying that block's message: the fan-out of an earlier
message is complete before any send of a later message happens. -/
theorem handleMessages_no_interleaving (fails : ConnId → Message → Bool)
    (msgs : List Message) (reg : Registry) :
    ∃ blocks : List (List SendEvent),
      (handleMessages fails msgs reg).2 = blocks.flatten
      ∧ List.Forall₂ (fun (bl : List SendEvent) (m : Message) =>
          ∀ e ∈ bl, e.msg = m) blocks msgs := by
  induction msgs generalizing reg with
  | nil => exact ⟨[], rfl, List.Forall₂.nil⟩
  | cons m rest ih =>
    obtain ⟨bs, h1, h2⟩ := ih (fanOut (fun c => fails c m) m reg).1
    refine ⟨(fanOut (fun c => fails c m) m reg).2 :: bs, ?_, ?_⟩
    · simp [handleMessages, h1]
    · refine List.Forall₂.cons ?_ h2
      intro e he
      rw [fanOut, fanOutLoop_snd] at he
      obtain ⟨x, _, rfl⟩ := List.mem_map.mp he
      rfl

/-! ## Claim theorems for registry removal -/

/-- C7: `delete(clients, conn)` on an absent key leaves the map unchanged
(and raises nothing — Go map delete has no error result), and deleting
twice equals deleting once. -/
theorem deleteClient_idempotent (reg : Registry) (c : ConnId) :
    (c ∉ reg → deleteClient reg c = reg)
    ∧ deleteClient (deleteClient reg c) c = deleteClient reg c := by
  constructor
  · intro hc
    induction reg with
    | nil => rfl
    | cons a t ih =>
      have hac : a ≠ c := fun h => hc (h ▸ List.mem_cons_self a t)
      have hct : c ∉ t := fun h => hc (List.mem_cons_of_mem a h)
      simp [deleteClient, List.filter_cons, hac]
      simpa [deleteClient] using ih hct
  · induction reg with
    | nil => rfl
    | cons a t ih =>
      by_cases hac : a = c
      · simp [deleteClient, List.filter_cons, hac] at ih ⊢
      · simp [deleteClient, List.filter_cons, hac] at ih ⊢

/-- Witness for C7: deleting the absent key 0 from [1, 2]. -/
theorem deleteClient_idempotent_witness :
    (0 ∉ ([1, 2] : Registry)) ∧ deleteClient [1, 2] 0 = [1, 2]
    ∧ deleteClient (deleteClient [1, 2] 0) 0 = deleteClient [1, 2] 0 :=
  ⟨by decide, (deleteClient_idempotent [1, 2] 0).1 (by decide),
    (deleteClient_idempotent [1, 2] 0).2⟩

/-! ## Claim theorems for the connection lifecycle -/

/-- Every enabled or disabled step preserves the lifecycle invariant. -/
theorem hubInv_step (s : SysSt) (hs : HubInv s) (e : Ev) : HubInv (step s e) := by
  by_cases hE : enabled s e = true
  · cases e with
    | register c =>
      have hstart : (s c).started = false := by
        simpa [enabled] using hE
      have hinit : s c = ConnSt.init := (hs c).2 hstart
      intro x
      by_cases hx : x = c
      · subst hx
        simp [step, hE, applyEv, hinit, ConnSt.init]
      · simpa [step, hE, applyEv, hx] using hs x
    | readOk c m =>
      intro x
      simpa [step, hE, applyEv] using hs x
    | readFail c =>
      have hact : (s c).active = true ∧ (s c).readFailed = false := by
        constructor
        · by_contra h
          simp [enabled, Bool.not_eq_true] at hE h
          rw [h] at hE
          simp at hE
        · by_contra h
          simp [enabled, Bool.not_eq_true] at hE h
          rw [h] at hE
          simp at hE
      have hstarted : (s c).started = true := by
        by_contra h
        have := (hs c).2 (Bool.not_eq_true _ ▸ eq_false_of_ne_true h)
        rw [this] at hact
        exact Bool.false_ne_true hact.1
      intro x
      by_cases hx : x = c
      · subst hx
        refine ⟨by simp [step, hE, applyEv], ?_⟩
        intro h
        rw [step, if_pos hE] at h
        simp [applyEv] at h
        rw [hstarted] at h
        cases h
      · simpa [step, hE, applyEv, hx] using hs x
    | writeFail c =>
      have hreg : (s c).registered = true := by simpa [enabled] using hE
      have hfields : (s c).active = true ∧ (s c).readFailed = false
          ∧ (s c).writeFailed = false := by
        have h1 := (hs c).1
        rw [hreg] at h1
        have h1s := h1.symm
        simp [Bool.and_eq_true] at h1s
        exact ⟨h1s.1.1, by simpa using h1s.1.2, by simpa using h1s.2⟩
      have hstarted : (s c).started = true := by
        by_contra h
        have := (hs c).2 (Bool.not_eq_true _ ▸ eq_false_of_ne_true h)
        rw [this] at hreg
        exact Bool.false_ne_true hreg
      intro x
      by_cases hx : x = c
      · subst hx
        refine ⟨?_, ?_⟩
        · simp [step, hE, applyEv, hfields.1, hfields.2.1]
        · intro h
          rw [step, if_pos hE] at h
          simp [applyEv] at h
          rw [hstarted] at h
          cases h
      · simpa [step, hE, applyEv, hx] using hs x
  · intro x
    simpa [step, hE] using hs x

/-- The lifecycle invariant holds in every reachable state. -/
theorem hubInv_foldl : ∀ (evs : List Ev) (s : SysSt), HubInv s →
    HubInv (evs.foldl step s) := by
  intro evs
  induction evs with
  | nil => intro s h; exact h
  | cons e t ih => intro s h; exact ih _ (hubInv_step s h e)

/-- The initial state satisfies the lifecycle invariant. -/
theorem hubInv_init : HubInv initSt := by
  intro c
  exact ⟨rfl, fun _ => rfl⟩

/-- C3 (amended): along every trace, a connection is in the clients map
exactly when its handleConnections goroutine is active and no terminal
failure has yet been observed on it — a read failure in that goroutine or
a write failure in the dispatch loop, the latter being observed by the hub
rather than by the goroutine itself; and a connection once started is
never registered a second time. -/
theorem registry_membership_invariant (evs : List Ev) (c : ConnId) :
    ((run evs c).registered
        = ((run evs c).active && !(run evs c).readFailed
            && !(run evs c).writeFailed))
    ∧ ((run evs c).started = true → run (evs ++ [Ev.register c]) = run evs) := by
  constructor
  · exact (hubInv_foldl evs initSt hubInv_init c).1
  · intro h
    show (evs ++ [Ev.register c]).foldl step initSt = _
    rw [List.foldl_append]
    simp only [List.foldl_cons, List.foldl_nil]
    show step (run evs) (Ev.register c) = run evs
    rw [step]
    simp [enabled, h]

/-- Witness for C3: after a single registration the connection is started,
and a repeated register event changes nothing. -/
theorem registry_membership_invariant_witness :
    ((run [Ev.register 0] 0).started = true)
    ∧ run ([Ev.register 0] ++ [Ev.register 0]) = run [Ev.register 0] :=
  ⟨by decide, (registry_membership_invariant [Ev.register 0] 0).2 (by decide)⟩

/-- C3 counterexample: after the trace [register 0, writeFail 0] — the hub
observed a write failure on connection 0 and deleted it — the connection's
own goroutine is still active and has observed no read failure, yet the
connection is no longer registered; so membership is not equivalent to
"ingress goroutine active and it has observed no failure". -/
theorem registry_membership_literal_false :
    ¬ ((run [Ev.register 0, Ev.writeFail 0] 0).registered
        = ((run [Ev.register 0, Ev.writeFail 0] 0).active
            && !(run [Ev.register 0, Ev.writeFail 0] 0).readFailed)) := by
  decide

/-! ## Claim theorems for handshake handling and registry synchronization -/

/-- C4 divergence: a failed websocket upgrade in handleConnections hits
`log.Fatal(err)`, which terminates the entire process — no local reject
and continue.  (The registry is untouched only because the abort precedes
registration.) -/
theorem handshake_failure_aborts_process :
    handleConnectionsEntry UpgradeResult.err [0, 1] = HCOutcome.processAbort := by
  rfl

/-- C6 divergence: none of the four accesses to the `clients` map in
messenger.go is guarded by any synchronization, and accesses from two
different goroutines (an ingress goroutine and the dispatch goroutine)
are among them — a Go data race, not mutual exclusion. -/
theorem clients_accesses_unsynchronized :
    (∀ a ∈ clientsAccesses 0, a.sync = false)
    ∧ (∃ a ∈ clientsAccesses 0, ∃ b ∈ clientsAccesses 0, a.task ≠ b.task) := by
  decide

/-! ## Claim theorems for the CRUD handlers -/

/-- C8 divergence: main.go's getGame, given a well-formed hex id with no
stored record, answers 200 with the zero-valued game instead of 404; the
repository's earlier handler file answers 404 on the same input. -/
theorem getGame_missing_id_responds_200 :
    MainGo.getGame missingHexId [] = HttpResponse.okBody Game.zero
    ∧ MainGo.getGame missingHexId [] ≠ HttpResponse.notFound
    ∧ Part000.getGame missingHexId [] = HttpResponse.notFound := by
  refine ⟨?_, by decide, rfl⟩
  rfl

/-- C9 counterexample: with no record stored under the id, updateGame and
deleteGame both answer 200 OK, not a not-found result. -/
theorem update_delete_missing_id_200 :
    findDoc [] missingHexId = none
    ∧ (updateGame missingHexId none 0 []).1 = HttpResponse.okNoBody
    ∧ (deleteGame missingHexId []).1 = HttpResponse.okNoBody
    ∧ HttpResponse.okNoBody ≠ HttpResponse.notFound := by
  refine ⟨rfl, rfl, rfl, by decide⟩

/-- C9 (amended): whenever the database operation itself succeeds — which
the pure-store model always does — updateGame and deleteGame answer
200 OK regardless of whether a record with the id exists; they never
produce a not-found result. -/
theorem update_delete_always_ok (id : String) (decoded : Option Game)
    (now : Nat) (db : GameStore) :
    (updateGame id decoded now db).1 = HttpResponse.okNoBody
    ∧ (deleteGame id db).1 = HttpResponse.okNoBody :=
  ⟨rfl, rfl⟩

/-- C10: createGame with a body that fails to decode (empty or invalid
JSON) keeps the zero-valued game, stamps CreatedAt with the clock and
LastUpdated equal to CreatedAt, inserts that record under the generated
id, and answers 201 Created. -/
theorem createGame_ignores_decode_failure (now : Nat) (genId : String)
    (db : GameStore) :
    createGame none now genId db
      = (HttpResponse.created,
          db ++ [(genId, { Game.zero with createdAt := now, lastUpdated := now })])
    ∧ ({ Game.zero with createdAt := now, lastUpdated := now }).lastUpdated
        = ({ Game.zero with createdAt := now, lastUpdated := now }).createdAt := by
  exact ⟨rfl, rfl⟩
